import Mathlib

/-!
Verification of the warp-node tunnel library against its specification.
The TypeScript sources under src (channel.ts, server.ts, the client file)
are translated into executable Lean definitions; the theorems below settle
the specified properties of the channel, the signal linking utility, the
duplex WebSocket transport, and the server routing core.
-/

namespace Warp

/-- Models one source signal passed to `link` (src/channel.ts, lines 12-22).
`alreadyAborted` records whether the source signal was already aborted when
`link` was called; `firesLater` records whether the source dispatches its
abort event after `link` attached its listener. A signal dispatches its abort
event at most once, so an already-aborted source never fires again, and a
listener attached after the event was dispatched never runs. -/
structure LinkSource where
  alreadyAborted : Bool
  firesLater : Bool
  deriving DecidableEq

/-- Final aborted state of the derived controller built by `link`
(src/channel.ts, lines 12-22): each listener that actually runs aborts the
derived controller unless it is already aborted. Listeners attached to
sources that were already aborted when `link` ran never fire, because the
abort event of those sources was dispatched before the listener existed. -/
def link (sources : List LinkSource) : Bool :=
  sources.foldl (fun ctrlAborted s =>
    if s.firesLater && !ctrlAborted then true else ctrlAborted) false

/-- The predicate used by claim C9: the source signal has fired at some time,
whether before or after `link` was called. -/
def srcFired (s : LinkSource) : Bool := s.alreadyAborted || s.firesLater

/-- Entry of the internal queue of `makeChan` (src/channel.ts, line 40): the
sent value, the id of its send promise, and whether the resolver stored with
it is the capacity-restoring closure (`buffered = true`) or the resolver of a
still-pending rendezvous send promise (`buffered = false`). -/
structure Entry (T : Type) where
  sendId : Nat
  value : T
  buffered : Bool
  deriving DecidableEq

/-- State of a channel built by `makeChan` (src/channel.ts, lines 38-94).
`closed` is `ctrl.signal.aborted`; `abortEvents` counts how often the
`onabort` handler ran (it resolves the `closed` promise, so it also counts
resolutions of that promise). `resolved`, `rejected` and `consumed` record,
by send id, which send promises have been resolved, which have been rejected
with `ClosedChannelError`, and which queue entries some receiver has
dequeued. -/
structure ChanState (T : Type) where
  currentCapacity : Nat
  queue : List (Entry T)
  closed : Bool
  abortEvents : Nat
  nextSendId : Nat
  resolved : List Nat
  rejected : List Nat
  consumed : List Nat
  deriving DecidableEq

/-- The state returned by `makeChan(capacity)` (src/channel.ts, line 38). -/
def makeChan (T : Type) (capacity : Nat) : ChanState T :=
  { currentCapacity := capacity
    queue := []
    closed := false
    abortEvents := 0
    nextSendId := 0
    resolved := []
    rejected := []
    consumed := [] }

/-- One call of `send` (src/channel.ts, lines 47-60), returning the new state
and the id of the new send promise. When the channel is closed the promise is
rejected at once, but the executor keeps running: the entry is still pushed
onto the queue. When spare capacity exists the promise is resolved at once
(a no-op if it was just rejected) and the stored resolver becomes the closure
that restores `currentCapacity`. -/
def send {T : Type} (s : ChanState T) (v : T) : ChanState T × Nat :=
  let id := s.nextSendId
  let rej := if s.closed then id :: s.rejected else s.rejected
  if 0 < s.currentCapacity then
    ({ s with
        currentCapacity := s.currentCapacity - 1
        queue := s.queue ++ [⟨id, v, true⟩]
        resolved := if s.closed then s.resolved else id :: s.resolved
        rejected := rej
        nextSendId := id + 1 }, id)
  else
    ({ s with
        queue := s.queue ++ [⟨id, v, false⟩]
        rejected := rej
        nextSendId := id + 1 }, id)

/-- `close` (src/channel.ts, lines 62-64): `ctrl.abort()` is a no-op on an
already aborted controller; on the first call the abort event is dispatched
exactly once, which resolves the `closed` promise. -/
def close {T : Type} (s : ChanState T) : ChanState T :=
  if s.closed then s
  else { s with closed := true, abortEvents := s.abortEvents + 1 }

/-- Result of one iteration of a `recv` loop: the iterator returned, the
iterator is suspended in `queue.pop` on an empty queue, or a value was
dequeued and yielded. -/
inductive RecvResult (T : Type) where
  | terminated
  | blocked
  | yielded (value : T) (after : ChanState T)
  deriving DecidableEq

/-- One iteration of the `recv` loop (src/channel.ts, lines 66-85) of an
iterator whose linked signal currently reads `linkedAborted`: if the linked
signal is aborted the iterator returns; otherwise `queue.pop` dequeues the
oldest entry (suspending while the queue is empty, per the queue contract of
spec section 4.1 - queue.ts is not under src), its stored resolver runs
(restoring capacity for buffered entries, resolving the send promise of a
pending rendezvous send unless that promise was already rejected), and the
value is yielded. -/
def recvStepWithLinked {T : Type} (linkedAborted : Bool) (s : ChanState T) :
    RecvResult T :=
  if linkedAborted then .terminated
  else
    match s.queue with
    | [] => .blocked
    | e :: rest =>
      .yielded e.value
        { s with
          queue := rest
          currentCapacity :=
            if e.buffered then s.currentCapacity + 1 else s.currentCapacity
          resolved :=
            if e.buffered then s.resolved
            else if s.rejected.contains e.sendId then s.resolved
            else e.sendId :: s.resolved
          consumed := e.sendId :: s.consumed }

/-- Iteration of a `recv` iterator created without an external signal: its
linked signal is `ctrl.signal` itself (src/channel.ts, line 69). -/
def recvStep {T : Type} (s : ChanState T) : RecvResult T :=
  recvStepWithLinked s.closed s

/-- The value yielded by a receive iteration, when one was yielded. -/
def yieldedValue {T : Type} : RecvResult T → Option T
  | .yielded v _ => some v
  | _ => none

/-- Operations of channel clients, used to quantify over arbitrary
interleavings of sends, closes and receive iterations. -/
inductive ChanOp (T : Type) where
  | send (v : T)
  | close
  | recv
  deriving DecidableEq

/-- State transition of one channel operation. A receive iteration changes
the state only when it dequeues an entry. -/
def applyChanOp {T : Type} (s : ChanState T) : ChanOp T → ChanState T
  | .send v => (send s v).1
  | .close => close s
  | .recv =>
    match recvStep s with
    | .yielded _ after => after
    | _ => s

/-- Run a sequence of operations on a fresh channel of the given capacity. -/
def runChanOps {T : Type} (capacity : Nat) (ops : List (ChanOp T)) :
    ChanState T :=
  ops.foldl applyChanOp (makeChan T capacity)

/-- Run a sequence of operations from an arbitrary channel state. -/
def runChanOpsFrom {T : Type} (s : ChanState T) (ops : List (ChanOp T)) :
    ChanState T :=
  ops.foldl applyChanOp s

/-- Invariant of every channel created with capacity 0: no spare capacity
ever appears, no queue entry is buffered, and every resolved send id was
dequeued by a receiver. -/
def Cap0Inv {T : Type} (s : ChanState T) : Prop :=
  s.currentCapacity = 0 ∧ (∀ e ∈ s.queue, e.buffered = false) ∧
    ∀ id ∈ s.resolved, id ∈ s.consumed

lemma cap0_step {T : Type} (s : ChanState T) (op : ChanOp T) (h : Cap0Inv s) :
    Cap0Inv (applyChanOp s op) := by
  obtain ⟨h1, h2, h3⟩ := h
  cases op with
  | send v =>
    have hc : ¬ 0 < s.currentCapacity := by omega
    refine ⟨by simp [applyChanOp, send, hc, h1], ?_, ?_⟩
    · intro e he
      simp only [applyChanOp, send, if_neg hc, List.mem_append,
        List.mem_singleton] at he
      rcases he with he | he
      · exact h2 e he
      · simp [he]
    · intro id hid
      simp only [applyChanOp, send, if_neg hc] at hid ⊢
      exact h3 id hid
  | close =>
    by_cases hcl : s.closed
    · simpa [applyChanOp, close, hcl] using ⟨h1, h2, h3⟩
    · simp only [applyChanOp, close, if_neg hcl]
      exact ⟨h1, h2, h3⟩
  | recv =>
    cases hr : recvStep s with
    | terminated => simpa [applyChanOp, hr] using ⟨h1, h2, h3⟩
    | blocked => simpa [applyChanOp, hr] using ⟨h1, h2, h3⟩
    | yielded val after =>
      simp only [applyChanOp, hr]
      simp only [recvStep, recvStepWithLinked] at hr
      by_cases hcl : s.closed = true
      · rw [if_pos hcl] at hr
        exact absurd hr (by simp)
      · rw [if_neg hcl] at hr
        cases hq : s.queue with
        | nil =>
          rw [hq] at hr
          exact absurd hr (by simp)
        | cons e rest =>
          rw [hq] at hr
          injection hr with hv ha
          subst ha
          have hb : e.buffered = false := h2 e (by rw [hq]; exact List.mem_cons_self _ _)
          have hbn : ¬ e.buffered = true := by simp [hb]
          refine ⟨?_, ?_, ?_⟩
          · simpa [if_neg hbn] using h1
          · intro x hx
            exact h2 x (by rw [hq]; exact List.mem_cons_of_mem _ hx)
          · intro id hid
            have hid2 : id ∈ (if e.buffered = true then s.resolved
                else if s.rejected.contains e.sendId = true then s.resolved
                else e.sendId :: s.resolved) := hid
            rw [if_neg hbn] at hid2
            show id ∈ e.sendId :: s.consumed
            by_cases hrj : s.rejected.contains e.sendId = true
            · rw [if_pos hrj] at hid2
              exact List.mem_cons_of_mem _ (h3 id hid2)
            · rw [if_neg hrj] at hid2
              rcases List.mem_cons.mp hid2 with hid2 | hid2
              · exact hid2 ▸ List.mem_cons_self _ _
              · exact List.mem_cons_of_mem _ (h3 id hid2)

lemma cap0_runFrom {T : Type} (ops : List (ChanOp T)) :
    ∀ s : ChanState T, Cap0Inv s → Cap0Inv (runChanOpsFrom s ops) := by
  induction ops with
  | nil => intro s h; exact h
  | cons op ops ih =>
    intro s h
    exact ih (applyChanOp s op) (cap0_step s op h)

lemma cap0_init (T : Type) : Cap0Inv (makeChan T 0) :=
  ⟨rfl, by simp [makeChan], by simp [makeChan]⟩

/-- C4: on a channel created with capacity 0 (the default), a send promise
resolves only once a receiver has dequeued the corresponding entry inside a
recv iteration: along every sequence of operations on a fresh capacity-0
channel, every resolved send id has been consumed by a receiver, so send
never resolves while nobody has consumed the item. -/
theorem c4_rendezvous (ops : List (ChanOp Nat)) (id : Nat)
    (h : id ∈ (runChanOps 0 ops).resolved) : id ∈ (runChanOps 0 ops).consumed :=
  ((cap0_runFrom ops (makeChan Nat 0) (cap0_init Nat)).2.2) id h

/-- Witness for C4 at a concrete run: one rendezvous send followed by one
receive iteration resolves send id 0, and id 0 has indeed been consumed. -/
theorem c4_rendezvous_witness :
    0 ∈ (runChanOps 0 [ChanOp.send 9, ChanOp.recv]).resolved ∧
      0 ∈ (runChanOps 0 [ChanOp.send 9, ChanOp.recv]).consumed :=
  ⟨by decide, c4_rendezvous [ChanOp.send 9, ChanOp.recv] 0 (by decide)⟩

lemma close_close {T : Type} (s : ChanState T) : close (close s) = close s := by
  by_cases h : s.closed
  · simp [close, h]
  · simp [close, h]

/-- C8: calling close N + 1 times is indistinguishable from calling it once:
the resulting channel states are equal, so the closed promise resolves once,
the abort event fires once, and every subsequent send and recv behaves the
same. -/
theorem c8_close_idempotent (T : Type) (s : ChanState T) (n : Nat) :
    (List.replicate (n + 1) (ChanOp.close : ChanOp T)).foldl applyChanOp s =
      applyChanOp s ChanOp.close := by
  induction n generalizing s with
  | zero => rfl
  | succ n ih =>
    rw [List.replicate_succ, List.foldl_cons, ih]
    exact close_close s

lemma closed_applyChanOp {T : Type} (s : ChanState T) (op : ChanOp T)
    (h : s.closed = true) : (applyChanOp s op).closed = true := by
  cases op with
  | send v => by_cases hc : 0 < s.currentCapacity <;> simp [applyChanOp, send, hc, h]
  | close => simp [applyChanOp, close, h]
  | recv => simp [applyChanOp, recvStep, recvStepWithLinked, h]

lemma closed_runFrom {T : Type} (ops : List (ChanOp T)) :
    ∀ s : ChanState T, s.closed = true → (runChanOpsFrom s ops).closed = true := by
  induction ops with
  | nil => intro s h; exact h
  | cons op ops ih =>
    intro s h
    exact ih (applyChanOp s op) (closed_applyChanOp s op h)

lemma recvStep_closed {T : Type} (s : ChanState T) (h : s.closed = true) :
    recvStep s = RecvResult.terminated := by
  simp [recvStep, recvStepWithLinked, h]

/-- C7 (counterexample to the claim as stated): on a capacity-0 channel that
was closed before `send 42`, the send promise is rejected, yet the value 42
is delivered to a receiver: a recv iterator created after the close with an
external signal has a linked signal that is never aborted (the abort event
of the channel signal was dispatched before `link` attached its listener),
so its first iteration dequeues and yields 42. -/
theorem c7_counterexample :
    (send (close (makeChan Nat 0)) 42).1.rejected = [0] ∧
      yieldedValue (recvStepWithLinked (link [⟨true, false⟩, ⟨false, false⟩])
        (send (close (makeChan Nat 0)) 42).1) = some 42 := by
  decide

/-- C7 (amended): if close() was called before send(v), then send(v) rejects
immediately with the closed-channel error and resolves nothing, and no recv
iterator whose linked signal observes the close (in particular every iterator
created without an external signal) ever receives v: after any further
operations every such receive iteration terminates without yielding. -/
theorem c7_amended (s : ChanState Nat) (v : Nat) (h : s.closed = true) :
    (send s v).2 ∈ (send s v).1.rejected ∧
    (send s v).1.resolved = s.resolved ∧
    ∀ ops : List (ChanOp Nat),
      recvStep (runChanOpsFrom (send s v).1 ops) = RecvResult.terminated := by
  have hsc : (send s v).1.closed = true := by
    by_cases hc : 0 < s.currentCapacity <;> simp [send, hc, h]
  refine ⟨?_, ?_, ?_⟩
  · by_cases hc : 0 < s.currentCapacity <;> simp [send, hc, h]
  · by_cases hc : 0 < s.currentCapacity <;> simp [send, hc, h]
  · intro ops
    exact recvStep_closed _ (closed_runFrom ops _ hsc)

/-- Witness for the amended C7 on a concrete closed channel: the send promise
is rejected and a following receive iteration terminates without a value. -/
theorem c7_amended_witness :
    (send (close (makeChan Nat 0)) 5).2 ∈ (send (close (makeChan Nat 0)) 5).1.rejected ∧
      recvStep (runChanOpsFrom (send (close (makeChan Nat 0)) 5).1 [ChanOp.recv]) =
        RecvResult.terminated :=
  ⟨(c7_amended (close (makeChan Nat 0)) 5 (by decide)).1,
   (c7_amended (close (makeChan Nat 0)) 5 (by decide)).2.2 [ChanOp.recv]⟩

/-- C10 (the code at the failing input): a value sent on a fresh capacity-0
channel sits in the queue when close() is called; a recv iterator created
after the close with a fresh external signal has a linked signal that is
never aborted - `link` attached its abort listener to the channel signal
after that signal had already dispatched its abort event - so the iterator
dequeues and yields the buffered value instead of terminating. -/
theorem c10_recv_after_close_yields :
    (close (send (makeChan Nat 0) 7).1).closed = true ∧
      link [⟨true, false⟩, ⟨false, false⟩] = false ∧
      yieldedValue (recvStepWithLinked (link [⟨true, false⟩, ⟨false, false⟩])
        (close (send (makeChan Nat 0) 7).1)) = some 7 := by
  decide

lemma link_foldl_acc (l : List LinkSource) :
    ∀ acc : Bool,
      l.foldl (fun ctrlAborted s =>
        if s.firesLater && !ctrlAborted then true else ctrlAborted) acc
      = (acc || l.any (fun s => s.firesLater)) := by
  induction l with
  | nil => intro acc; simp
  | cons a l ih =>
    intro acc
    rw [List.foldl_cons, ih, List.any_cons]
    cases acc <;> cases ha : a.firesLater <;> simp [ha]

lemma link_eq_any (sources : List LinkSource) :
    link sources = sources.any (fun s => s.firesLater) := by
  rw [link, link_foldl_acc]
  simp

/-- C9 (counterexample to the claim as stated): a single source signal that
was already aborted when link was called has fired, yet the derived signal is
not aborted, because the abort listener link attaches never runs for an
already dispatched abort event. -/
theorem c9_counterexample :
    srcFired ⟨true, false⟩ = true ∧ link [⟨true, false⟩] = false := by
  decide

/-- C9 (amended): the derived signal built by link is aborted exactly when at
least one source dispatches its abort event after link was called: if no
source has fired at all the derived signal is not aborted, if any source
fires after linkage the derived signal is aborted, and sources that were
already aborted at link time (and hence never fire again) do not abort the
derived signal. -/
theorem c9_amended (sources : List LinkSource) :
    ((∀ s ∈ sources, srcFired s = false) → link sources = false) ∧
    (∀ s ∈ sources, s.firesLater = true → link sources = true) ∧
    ((∀ s ∈ sources, s.firesLater = false) → link sources = false) := by
  refine ⟨?_, ?_, ?_⟩
  · intro h
    rw [link_eq_any, List.any_eq_false]
    intro s hs
    have hf := h s hs
    simp only [srcFired, Bool.or_eq_false_iff] at hf
    simp [hf.2]
  · intro s hs hf
    rw [link_eq_any, List.any_eq_true]
    exact ⟨s, hs, by simp [hf]⟩
  · intro h
    rw [link_eq_any, List.any_eq_false]
    intro s hs
    simp [h s hs]

/-- Witness for the amended C9: a source firing after linkage aborts the
derived signal. -/
theorem c9_amended_witness : link [LinkSource.mk false true] = true :=
  (c9_amended [⟨false, true⟩]).2.1 ⟨false, true⟩ (by decide) (by decide)

/-- Lookup in a string-keyed record object, first matching key wins. Plain
objects of the server state (hostToClientId, serverStates) are modelled as
association lists whose single-binding shape is kept by aset and aerase. -/
def alookup {β : Type} : List (String × β) → String → Option β
  | [], _ => none
  | p :: l, k => if p.1 = k then some p.2 else alookup l k

/-- Effect of the delete operator on a record object key. -/
def aerase {β : Type} : List (String × β) → String → List (String × β)
  | [], _ => []
  | p :: l, k => if p.1 = k then aerase l k else p :: aerase l k

/-- Effect of a record object key assignment. -/
def aset {β : Type} (l : List (String × β)) (k : String) (v : β) :
    List (String × β) :=
  (k, v) :: aerase l k

lemma alookup_aerase {β : Type} (l : List (String × β)) (k k2 : String) :
    alookup (aerase l k) k2 = if k2 = k then none else alookup l k2 := by
  induction l with
  | nil => simp [aerase, alookup]
  | cons p l ih =>
    by_cases h1 : p.1 = k
    · rw [aerase, if_pos h1, ih]
      by_cases h3 : k2 = k
      · simp [h3]
      · have : ¬ p.1 = k2 := by rw [h1]; exact fun he => h3 he.symm
        simp [h3, alookup, this]
    · rw [aerase, if_neg h1]
      by_cases h2 : p.1 = k2
      · have h3 : ¬ k2 = k := by rw [← h2]; exact fun he => h1 he
        simp [alookup, h2, h3]
      · simp [alookup, h2, ih]

lemma alookup_aset {β : Type} (l : List (String × β)) (k k2 : String) (v : β) :
    alookup (aset l k v) k2 = if k = k2 then some v else alookup l k2 := by
  by_cases h : k = k2
  · simp [aset, alookup, h]
  · have h2 : ¬ k2 = k := fun he => h he.symm
    rw [aset, alookup, if_neg h, alookup_aerase, if_neg h2, if_neg h]

/-- Pruning loop of the connection teardown (src/server.ts, lines 139-143):
for each host the connection had claimed, the registry entry is deleted only
if it still points at this connection id. -/
def cleanupHosts (reg : List (String × String)) (hosts : List String)
    (cid : String) : List (String × String) :=
  hosts.foldl (fun r h => if alookup r h = some cid then aerase r h else r) reg

lemma cleanupHosts_cons (reg : List (String × String)) (a : String)
    (hs : List String) (cid : String) :
    cleanupHosts reg (a :: hs) cid =
      cleanupHosts (if alookup reg a = some cid then aerase reg a else reg) hs cid :=
  rfl

lemma cleanupHosts_lookup_cases (cid : String) (hosts : List String) :
    ∀ (reg : List (String × String)) (h : String),
      alookup (cleanupHosts reg hosts cid) h = alookup reg h ∨
        alookup (cleanupHosts reg hosts cid) h = none := by
  induction hosts with
  | nil => intro reg h; exact Or.inl rfl
  | cons a hs ih =>
    intro reg h
    rw [cleanupHosts_cons]
    by_cases hc : alookup reg a = some cid
    · rw [if_pos hc]
      rcases ih (aerase reg a) h with hcase | hcase
      · rw [hcase, alookup_aerase]
        by_cases hha : h = a
        · exact Or.inr (if_pos hha)
        · exact Or.inl (if_neg hha)
      · exact Or.inr hcase
    · rw [if_neg hc]
      exact ih reg h

lemma cleanupHosts_preserves (cid : String) (hosts : List String) :
    ∀ (reg : List (String × String)) (h : String),
      alookup reg h ≠ some cid →
        alookup (cleanupHosts reg hosts cid) h = alookup reg h := by
  induction hosts with
  | nil => intro reg h _; rfl
  | cons a hs ih =>
    intro reg h hne
    rw [cleanupHosts_cons]
    by_cases hc : alookup reg a = some cid
    · rw [if_pos hc]
      have hha : ¬ h = a := fun he => hne (he ▸ hc)
      have he : alookup (aerase reg a) h = alookup reg h := by
        rw [alookup_aerase, if_neg hha]
      rw [ih (aerase reg a) h (by rw [he]; exact hne), he]
    · rw [if_neg hc]
      exact ih reg h hne

lemma cleanupHosts_not_cid (cid : String) (hosts : List String)
    (reg : List (String × String)) (h : String)
    (hne : alookup reg h ≠ some cid) :
    alookup (cleanupHosts reg hosts cid) h ≠ some cid := by
  rw [cleanupHosts_preserves cid hosts reg h hne]
  exact hne

lemma cleanupHosts_mem (cid : String) (hosts : List String) :
    ∀ (reg : List (String × String)) (h : String), h ∈ hosts →
      alookup (cleanupHosts reg hosts cid) h ≠ some cid := by
  induction hosts with
  | nil => intro reg h hmem; exact absurd hmem (List.not_mem_nil h)
  | cons a hs ih =>
    intro reg h hmem
    rw [cleanupHosts_cons]
    rcases List.mem_cons.mp hmem with hha | hmem2
    · subst hha
      by_cases hc : alookup reg h = some cid
      · rw [if_pos hc]
        apply cleanupHosts_not_cid
        rw [alookup_aerase, if_pos rfl]
        exact fun he => Option.noConfusion he
      · rw [if_neg hc]
        exact cleanupHosts_not_cid cid hs reg h hc
    · exact ih _ h hmem2

/-- Per-handler server state (src/server.ts, lines 96-97): the registry
hostToClientId maps a host to the owning connection id; conns tracks, for
each live connection id, the hosts array that its controller has pushed. -/
structure SrvState where
  registry : List (String × String)
  conns : List (String × List String)
  deriving DecidableEq

/-- Events of the connection lifecycle in serveHandler: a WebSocket connect
creating a fresh connection state, a register message adopting a host via
controller.link (src/server.ts, lines 122-125), and the teardown that runs
in the finally block when the inbound loop of the connection ends for any
reason (src/server.ts, lines 137-144). -/
inductive SrvOp where
  | connect (cid : String)
  | linkHost (cid host : String)
  | teardown (cid : String)
  deriving DecidableEq

/-- Transition of one lifecycle event. Connection ids are freshly generated
UUIDs, so connecting an already present id is modelled as a no-op; linkHost
appends to the hosts array of the connection and overwrites the registry
entry; teardown deletes the connection state and prunes its hosts. -/
def applySrvOp (s : SrvState) : SrvOp → SrvState
  | .connect cid =>
    match alookup s.conns cid with
    | some _ => s
    | none => { s with conns := (cid, []) :: s.conns }
  | .linkHost cid host =>
    match alookup s.conns cid with
    | none => s
    | some hosts =>
      { registry := aset s.registry host cid
        conns := aset s.conns cid (hosts ++ [host]) }
  | .teardown cid =>
    match alookup s.conns cid with
    | none => s
    | some hosts =>
      { registry := cleanupHosts s.registry hosts cid
        conns := aerase s.conns cid }

def initSrv : SrvState := ⟨[], []⟩

def runSrvOps (ops : List SrvOp) : SrvState := ops.foldl applySrvOp initSrv

/-- Invariant tying the registry to the hosts arrays: every registry entry
pointing at a connection id is recorded in the hosts array of that (live)
connection, so the teardown pruning loop reaches it. -/
def SrvInv (s : SrvState) : Prop :=
  ∀ h cid, alookup s.registry h = some cid →
    ∃ hs, alookup s.conns cid = some hs ∧ h ∈ hs

lemma srvInv_step (s : SrvState) (op : SrvOp) (hinv : SrvInv s) :
    SrvInv (applySrvOp s op) := by
  cases op with
  | connect cid0 =>
    cases hc : alookup s.conns cid0 with
    | some hs0 => simpa [applySrvOp, hc] using hinv
    | none =>
      simp only [applySrvOp, hc]
      intro h cid hl
      obtain ⟨hs, hlk, hm⟩ := hinv h cid hl
      refine ⟨hs, ?_, hm⟩
      have hne : ¬ cid0 = cid := by
        intro he
        rw [he] at hc
        rw [hc] at hlk
        exact Option.noConfusion hlk
      show alookup ((cid0, []) :: s.conns) cid = some hs
      rw [alookup, if_neg hne]
      exact hlk
  | linkHost cid0 host =>
    cases hc : alookup s.conns cid0 with
    | none => simpa [applySrvOp, hc] using hinv
    | some hs0 =>
      simp only [applySrvOp, hc]
      intro h cid hl
      rw [alookup_aset] at hl
      by_cases hh : host = h
      · rw [if_pos hh] at hl
        injection hl with hcid
        subst hcid
        subst hh
        refine ⟨hs0 ++ [host], ?_, by simp⟩
        show alookup (aset s.conns cid0 (hs0 ++ [host])) cid0 = _
        rw [alookup_aset, if_pos rfl]
      · rw [if_neg hh] at hl
        obtain ⟨hs, hlk, hm⟩ := hinv h cid hl
        by_cases hcc : cid0 = cid
        · subst hcc
          rw [hlk] at hc
          injection hc with hceq
          refine ⟨hs0 ++ [host], ?_, ?_⟩
          · show alookup (aset s.conns cid0 (hs0 ++ [host])) cid0 = _
            rw [alookup_aset, if_pos rfl]
          · subst hceq
            exact List.mem_append_left _ hm
        · refine ⟨hs, ?_, hm⟩
          show alookup (aset s.conns cid0 (hs0 ++ [host])) cid = some hs
          rw [alookup_aset, if_neg hcc]
          exact hlk
  | teardown cid0 =>
    cases hc : alookup s.conns cid0 with
    | none => simpa [applySrvOp, hc] using hinv
    | some hs0 =>
      simp only [applySrvOp, hc]
      intro h cid hl
      have hne : alookup (cleanupHosts s.registry hs0 cid0) h ≠ some cid0 := by
        rcases cleanupHosts_lookup_cases cid0 hs0 s.registry h with hcase | hcase
        · intro he
          rw [he] at hcase
          obtain ⟨hs, hlk, hm⟩ := hinv h cid0 hcase.symm
          rw [hc] at hlk
          injection hlk with hseq
          exact cleanupHosts_mem cid0 hs0 s.registry h (hseq ▸ hm) he
        · rw [hcase]
          exact fun he => Option.noConfusion he
      have hnec : ¬ cid0 = cid := by
        intro he
        exact hne (he ▸ hl)
      rcases cleanupHosts_lookup_cases cid0 hs0 s.registry h with hcase | hcase
      · rw [hl] at hcase
        obtain ⟨hs, hlk, hm⟩ := hinv h cid hcase.symm
        refine ⟨hs, ?_, hm⟩
        show alookup (aerase s.conns cid0) cid = some hs
        rw [alookup_aerase, if_neg (fun he => hnec he.symm)]
        exact hlk
      · rw [hl] at hcase
        exact absurd hcase (fun he => Option.noConfusion he)

lemma srvInv_runFrom (ops : List SrvOp) :
    ∀ s : SrvState, SrvInv s → SrvInv (ops.foldl applySrvOp s) := by
  induction ops with
  | nil => intro s h; exact h
  | cons op ops ih =>
    intro s h
    exact ih (applySrvOp s op) (srvInv_step s op h)

lemma srvInv_init : SrvInv initSrv := by
  intro h cid hl
  exact absurd hl (by simp [initSrv, alookup])

lemma srvInv_run (ops : List SrvOp) : SrvInv (runSrvOps ops) :=
  srvInv_runFrom ops initSrv srvInv_init

/-- C1: after the inbound loop of a connection ends and its teardown runs,
no registry entry maps to the dead connection id any more, and every host
entry that had been reassigned to a different connection id is left exactly
as it was. This holds after any reachable history of connects, host claims
and teardowns. -/
theorem c1_teardown_prunes (ops : List SrvOp) (cid : String) :
    (∀ h, alookup (applySrvOp (runSrvOps ops) (SrvOp.teardown cid)).registry h ≠
        some cid) ∧
    (∀ h cid2, cid2 ≠ cid → alookup (runSrvOps ops).registry h = some cid2 →
      alookup (applySrvOp (runSrvOps ops) (SrvOp.teardown cid)).registry h =
        some cid2) := by
  have hinv := srvInv_run ops
  cases hc : alookup (runSrvOps ops).conns cid with
  | none =>
    simp only [applySrvOp, hc]
    constructor
    · intro h hl
      obtain ⟨hs, hlk, -⟩ := hinv h cid hl
      rw [hc] at hlk
      exact Option.noConfusion hlk
    · intro h cid2 _ hl
      exact hl
  | some hs0 =>
    simp only [applySrvOp, hc]
    constructor
    · intro h hl
      rcases cleanupHosts_lookup_cases cid hs0 (runSrvOps ops).registry h with
        hcase | hcase
      · rw [hl] at hcase
        obtain ⟨hs, hlk, hm⟩ := hinv h cid hcase.symm
        rw [hc] at hlk
        injection hlk with hseq
        exact cleanupHosts_mem cid hs0 (runSrvOps ops).registry h (hseq ▸ hm) hl
      · rw [hl] at hcase
        exact Option.noConfusion hcase
    · intro h cid2 hne hl
      rw [cleanupHosts_preserves cid hs0 (runSrvOps ops).registry h
        (by rw [hl]; exact fun he => hne (Option.some.inj he))]
      exact hl

/-- Witness for C1 at the displacement scenario of the spec: connection A
claims x and y, connection B then displaces A on x; tearing down A removes y
but leaves x mapped to B. -/
theorem c1_teardown_prunes_witness :
    alookup (applySrvOp (runSrvOps [SrvOp.connect "A", SrvOp.linkHost "A" "x",
        SrvOp.linkHost "A" "y", SrvOp.connect "B", SrvOp.linkHost "B" "x"])
      (SrvOp.teardown "A")).registry "y" ≠ some "A" ∧
    alookup (applySrvOp (runSrvOps [SrvOp.connect "A", SrvOp.linkHost "A" "x",
        SrvOp.linkHost "A" "y", SrvOp.connect "B", SrvOp.linkHost "B" "x"])
      (SrvOp.teardown "A")).registry "x" = some "B" :=
  ⟨(c1_teardown_prunes [SrvOp.connect "A", SrvOp.linkHost "A" "x",
      SrvOp.linkHost "A" "y", SrvOp.connect "B", SrvOp.linkHost "B" "x"] "A").1 "y",
   (c1_teardown_prunes [SrvOp.connect "A", SrvOp.linkHost "A" "x",
      SrvOp.linkHost "A" "y", SrvOp.connect "B", SrvOp.linkHost "B" "x"] "A").2 "x" "B"
     (by decide) (by decide)⟩

/-- Outcome of the public branch of serveHandler for one request: either an
immediate response with a status and a fixed body, or the request is
forwarded onto the duplex channel of the named connection. -/
inductive Outcome where
  | resp (status : Nat) (body : String)
  | forwarded (cid : String)
  deriving DecidableEq

/-- The fixed body used by the 503 replies of serveHandler (src/server.ts,
lines 152-155 and 236-239). -/
def noRegistrationBody : String :=
  "No registration for domain and/or remote service not available"

/-- Routing decision of serveHandler for a public (non connect-path) request
(src/server.ts, lines 148-156 and 236-239): the Host header is looked up in
hostToClientId; without a header, without a registry entry, or with an entry
whose connection id has no live state in serverStates, the reply is a 503
with the fixed body; otherwise the request is forwarded to that connection. -/
def handlePublic (registry : List (String × String)) (liveConns : List String)
    (host : Option String) : Outcome :=
  match host with
  | none => .resp 503 noRegistrationBody
  | some h =>
    match alookup registry h with
    | none => .resp 503 noRegistrationBody
    | some cid =>
      if cid ∈ liveConns then .forwarded cid
      else .resp 503 noRegistrationBody

/-- C3: a public request whose Host header is absent from the registry, or
whose registry entry points to a connection id with no live connection
state, gets a response with status 503 and the exact fixed body; a request
without a Host header gets the same reply. -/
theorem c3_unreachable_503 (registry : List (String × String))
    (liveConns : List String) :
    (∀ h, alookup registry h = none →
      handlePublic registry liveConns (some h) = .resp 503 noRegistrationBody) ∧
    (∀ h cid, alookup registry h = some cid → cid ∉ liveConns →
      handlePublic registry liveConns (some h) = .resp 503 noRegistrationBody) ∧
    handlePublic registry liveConns none = .resp 503 noRegistrationBody := by
  refine ⟨?_, ?_, rfl⟩
  · intro h hl
    simp [handlePublic, hl]
  · intro h cid hl hnl
    simp [handlePublic, hl, hnl]

/-- Witness for C3: with x.test owned by a connection that has no live
state and y.test unregistered, both hosts get the fixed 503. -/
theorem c3_unreachable_503_witness :
    handlePublic [("x.test", "A")] ["B"] (some "x.test") =
      Outcome.resp 503 noRegistrationBody ∧
    handlePublic [("x.test", "A")] ["B"] (some "y.test") =
      Outcome.resp 503 noRegistrationBody :=
  ⟨(c3_unreachable_503 [("x.test", "A")] ["B"]).2.1 "x.test" "A" (by decide)
      (by decide),
   (c3_unreachable_503 [("x.test", "A")] ["B"]).1 "y.test" (by decide)⟩

/-- The two message codecs: jsonSerializer writes JSON with base64 chunks,
dataViewerSerializer writes the length-prefixed binary envelope (the codec
bodies live in serializers.ts, which is not part of the claims; only which
one is selected matters here). -/
inductive Codec where
  | json
  | binary
  deriving DecidableEq

/-- The query-string key used for codec negotiation (client file, line 8). -/
def CLIENT_VERSION_QUERY_STRING : String := "v"

/-- Structural model of a request URL: its path and the ordered list of
query parameters, as decoded by `new URL` and `searchParams`. -/
structure UrlQ where
  path : String
  query : List (String × String)
  deriving DecidableEq

/-- searchParams.get: the value of the first query parameter with the key,
null when absent. -/
def searchParamsGet (u : UrlQ) (k : String) : Option String :=
  alookup u.query k

/-- Codec selection of serveHandler on the connect path (src/server.ts,
lines 102-111): clientVersion null selects jsonSerializer, any present value
selects dataViewerSerializer. -/
def chooseCodec (u : UrlQ) : Codec :=
  match searchParamsGet u CLIENT_VERSION_QUERY_STRING with
  | none => .json
  | some _ => .binary

/-- The URL dialled by connectMainThread (client file, lines 49-51): the
connect path with the package version appended under the key v. -/
def clientDialUrl (version : String) : UrlQ :=
  { path := "/_connect", query := [(CLIENT_VERSION_QUERY_STRING, version)] }

/-- The serializer passed to makeWebSocket by connectMainThread (client
file, lines 52-55): always dataViewerSerializer. -/
def clientCodec : Codec := .binary

/-- C6: the server picks the binary codec whenever the query parameter v is
present and the JSON codec when it is absent; the client dial URL always
carries v set to the package version, the server therefore picks the binary
codec for it, and the client itself always uses the binary codec. -/
theorem c6_codec_negotiation :
    (∀ u : UrlQ, (searchParamsGet u CLIENT_VERSION_QUERY_STRING).isSome = true →
      chooseCodec u = .binary) ∧
    (∀ u : UrlQ, searchParamsGet u CLIENT_VERSION_QUERY_STRING = none →
      chooseCodec u = .json) ∧
    (∀ version,
      searchParamsGet (clientDialUrl version) CLIENT_VERSION_QUERY_STRING =
        some version ∧
      chooseCodec (clientDialUrl version) = .binary) ∧
    clientCodec = .binary := by
  refine ⟨?_, ?_, ?_, rfl⟩
  · intro u hp
    rcases hv : searchParamsGet u CLIENT_VERSION_QUERY_STRING with _ | v
    · rw [hv] at hp
      exact absurd hp (by simp)
    · simp [chooseCodec, hv]
  · intro u hp
    simp [chooseCodec, hp]
  · intro version
    constructor
    · simp [searchParamsGet, clientDialUrl, alookup]
    · simp [chooseCodec, searchParamsGet, clientDialUrl, alookup]

/-- Witness for C6 on concrete URLs: a dial with version 0.3.16 is answered
with the binary codec, an absent v falls back to JSON. -/
theorem c6_codec_negotiation_witness :
    chooseCodec (clientDialUrl "0.3.16") = Codec.binary ∧
    chooseCodec { path := "/_connect", query := [] } = Codec.json :=
  ⟨(c6_codec_negotiation.2.2.1 "0.3.16").2,
   c6_codec_negotiation.2.1 { path := "/_connect", query := [] } (by decide)⟩

/-- State of the handling of one forwarded request around its body pump
(src/server.ts, lines 180-223). The handler first awaits the request-start
send (line 180); only when that await resolves do lines 182-190 run: they
build `linked = link(ch.out.signal, req.signal)` and attach the abort
listener to req.signal, and only after them does the pump task start.
`attached` records whether that point was reached. `aborted` is whether the
abort event of req.signal has been dispatched; `abortedAfterAttach` and
`outClosedAfterAttach` record whether the respective source dispatched its
abort event while the listeners of `linked` existed - a dispatch before the
attachment is never seen by a listener added later. `outClosed` is
`ch.out.signal.aborted`; `sentAborted` and `sentEnd` record whether a
request-aborted or request-end message for this request id has been handed
to the outbound channel; `sentData` counts the request-data messages;
`chunksLeft` is what remains of the request body; `finished` means the pump
task returned. -/
structure PumpState where
  attached : Bool
  aborted : Bool
  abortedAfterAttach : Bool
  outClosed : Bool
  outClosedAfterAttach : Bool
  sentAborted : Bool
  sentEnd : Bool
  sentData : Nat
  chunksLeft : Nat
  finished : Bool
  deriving DecidableEq

def initPump (chunks : Nat) : PumpState :=
  { attached := false
    aborted := false
    abortedAfterAttach := false
    outClosed := false
    outClosedAfterAttach := false
    sentAborted := false
    sentEnd := false
    sentData := 0
    chunksLeft := chunks
    finished := false }

/-- Events interleaving with the request handling: the awaited request-start
send resolving so that lines 182-190 attach the listeners (attach), the
abort event of the public caller being dispatched (abortFire), the outbound
channel of the connection closing (outClose), and one step of the pump task
(pumpStep). -/
inductive PumpEv where
  | attach
  | abortFire
  | outClose
  | pumpStep
  deriving DecidableEq

/-- Aborted state of the signal `linked = link(ch.out.signal, req.signal)`
(src/server.ts, line 182): per the semantics of `link`, only a source that
dispatches its abort event after the linked listeners were attached aborts
the derived signal; a source already aborted at attachment time never does. -/
def pumpLinkedAborted (s : PumpState) : Bool :=
  s.abortedAfterAttach || s.outClosedAfterAttach

/-- One event transition. attach runs lines 182-190 once the awaited
request-start send resolved. abortFire dispatches the abort event of
req.signal at most once; the listener of line 183 runs only if it was
already attached, and then sends request-aborted best-effort when the
outbound channel is still open. outClose aborts ch.out.signal, reaching
`linked` only when dispatched after attachment. A pump step (possible only
once the pump task started, after attachment) either observes the linked
abort and returns, sends the next request-data chunk, or - in one step,
because from the `linked.aborted` check to handing request-end to the
outbound channel the code runs synchronously with no interleaving point -
performs the final check and sends request-end. -/
def applyPump (s : PumpState) : PumpEv → PumpState
  | .attach =>
    if s.attached then s else { s with attached := true }
  | .abortFire =>
    if s.aborted then s
    else { s with
      aborted := true
      abortedAfterAttach := s.abortedAfterAttach || s.attached
      sentAborted := s.sentAborted || (s.attached && !s.outClosed) }
  | .outClose =>
    { s with
      outClosed := true
      outClosedAfterAttach := s.outClosedAfterAttach || s.attached }
  | .pumpStep =>
    if s.attached then
      if s.finished then s
      else if pumpLinkedAborted s then { s with finished := true }
      else if 0 < s.chunksLeft then
        { s with chunksLeft := s.chunksLeft - 1, sentData := s.sentData + 1 }
      else { s with sentEnd := true, finished := true }
    else s

def runPump (chunks : Nat) (evs : List PumpEv) : PumpState :=
  evs.foldl applyPump (initPump chunks)

lemma pump_abort_preserved (s : PumpState) (e : PumpEv)
    (h1 : s.abortedAfterAttach = true) (h2 : s.sentEnd = false) :
    (applyPump s e).abortedAfterAttach = true ∧ (applyPump s e).sentEnd = false := by
  cases e with
  | attach =>
    by_cases ha : s.attached = true
    · simp [applyPump, ha, h1, h2]
    · simp [applyPump, ha, h1, h2]
  | abortFire =>
    by_cases ha : s.aborted = true
    · simp [applyPump, ha, h1, h2]
    · simp [applyPump, ha, h1, h2]
  | outClose => exact ⟨h1, h2⟩
  | pumpStep =>
    by_cases ha : s.attached = true
    · by_cases hf : s.finished = true
      · simp [applyPump, ha, hf, h1, h2]
      · simp [applyPump, ha, hf, pumpLinkedAborted, h1, h2]
    · simp [applyPump, ha, h1, h2]

lemma pump_abort_preserved_run (evs : List PumpEv) :
    ∀ s : PumpState, s.abortedAfterAttach = true → s.sentEnd = false →
      (evs.foldl applyPump s).abortedAfterAttach = true ∧
        (evs.foldl applyPump s).sentEnd = false := by
  induction evs with
  | nil => intro s h1 h2; exact ⟨h1, h2⟩
  | cons e evs ih =>
    intro s h1 h2
    obtain ⟨h1x, h2x⟩ := pump_abort_preserved s e h1 h2
    exact ih (applyPump s e) h1x h2x

lemma pump_sentAborted_mono (s : PumpState) (e : PumpEv)
    (h : s.sentAborted = true) : (applyPump s e).sentAborted = true := by
  cases e with
  | attach =>
    by_cases ha : s.attached = true
    · simp [applyPump, ha, h]
    · simp [applyPump, ha, h]
  | abortFire =>
    by_cases ha : s.aborted = true
    · simp [applyPump, ha, h]
    · simp [applyPump, ha, h]
  | outClose => exact h
  | pumpStep =>
    by_cases ha : s.attached = true
    · by_cases hf : s.finished = true
      · simp [applyPump, ha, hf, h]
      · by_cases hl : pumpLinkedAborted s = true
        · simp [applyPump, ha, hf, hl, h]
        · by_cases hc : 0 < s.chunksLeft
          · simp [applyPump, ha, hf, hl, hc, h]
          · simp [applyPump, ha, hf, hl, hc, h]
    · simp [applyPump, ha, h]

lemma pump_sentAborted_mono_run (evs : List PumpEv) :
    ∀ s : PumpState, s.sentAborted = true →
      (evs.foldl applyPump s).sentAborted = true := by
  induction evs with
  | nil => intro s h; exact h
  | cons e evs ih =>
    intro s h
    exact ih (applyPump s e) (pump_sentAborted_mono s e h)

/-- C5 (counterexample to the claim as stated): a bodiless request whose
abort signal fires during the awaited request-start send, before lines
182-190 run. The abort event is dispatched while no request-end has been
sent, yet no request-aborted is ever sent - the listener is attached only
after the dispatch and never runs - and the pump, whose linked signal never
aborts for the same reason, still sends request-end. -/
theorem c5_counterexample :
    (runPump 0 [PumpEv.abortFire]).sentEnd = false ∧
    (runPump 0 [PumpEv.abortFire]).aborted = true ∧
    (runPump 0 [PumpEv.abortFire, PumpEv.attach, PumpEv.pumpStep]).sentEnd = true ∧
    (runPump 0 [PumpEv.abortFire, PumpEv.attach,
      PumpEv.pumpStep]).sentAborted = false := by
  decide

/-- C5 (amended): if the abort signal of the public caller fires after the
handler attached the abort listener and the linked signal (which happens
once the awaited request-start send resolves) and before the body pump has
sent request-end, while the outbound channel is still open, then a
request-aborted message is sent for the request, and no request-end message
is ever sent afterwards, whatever further events follow. An abort dispatched
before the attachment is excluded: there the listener never runs. -/
theorem c5_amended (chunks : Nat) (pre post : List PumpEv)
    (hAtt : (runPump chunks pre).attached = true)
    (hEnd : (runPump chunks pre).sentEnd = false)
    (hAb : (runPump chunks pre).aborted = false)
    (hOut : (runPump chunks pre).outClosed = false) :
    (runPump chunks (pre ++ PumpEv.abortFire :: post)).sentEnd = false ∧
    (runPump chunks (pre ++ PumpEv.abortFire :: post)).sentAborted = true := by
  have hsplit : runPump chunks (pre ++ PumpEv.abortFire :: post) =
      post.foldl applyPump (applyPump (runPump chunks pre) PumpEv.abortFire) := by
    rw [runPump, List.foldl_append, List.foldl_cons]
    rfl
  have hstep : applyPump (runPump chunks pre) PumpEv.abortFire =
      { runPump chunks pre with
        aborted := true
        abortedAfterAttach := (runPump chunks pre).abortedAfterAttach ||
          (runPump chunks pre).attached
        sentAborted := (runPump chunks pre).sentAborted ||
          ((runPump chunks pre).attached && !(runPump chunks pre).outClosed) } := by
    simp [applyPump, hAb]
  rw [hsplit, hstep]
  constructor
  · exact (pump_abort_preserved_run post
      { runPump chunks pre with
        aborted := true
        abortedAfterAttach := (runPump chunks pre).abortedAfterAttach ||
          (runPump chunks pre).attached
        sentAborted := (runPump chunks pre).sentAborted ||
          ((runPump chunks pre).attached && !(runPump chunks pre).outClosed) }
      (by simp [hAtt]) hEnd).2
  · apply pump_sentAborted_mono_run
    simp [hAtt, hOut]

/-- Witness for the amended C5: a two-chunk body, listeners attached, one
chunk pumped, then the caller aborts; the remaining pump steps send no
request-end and request-aborted was sent. -/
theorem c5_amended_witness :
    (runPump 2 ([PumpEv.attach, PumpEv.pumpStep] ++ PumpEv.abortFire ::
      [PumpEv.pumpStep, PumpEv.pumpStep])).sentEnd = false ∧
    (runPump 2 ([PumpEv.attach, PumpEv.pumpStep] ++ PumpEv.abortFire ::
      [PumpEv.pumpStep, PumpEv.pumpStep])).sentAborted = true :=
  c5_amended 2 [PumpEv.attach, PumpEv.pumpStep] [PumpEv.pumpStep, PumpEv.pumpStep]
    (by decide) (by decide) (by decide) (by decide)

/-- Settlement state of the factory promise returned by makeWebSocket. -/
inductive WsPromise where
  | pending
  | resolvedCh
  | rejectedErr
  deriving DecidableEq

/-- State of one makeWebSocket binding (src/channel.ts, lines 118-174):
the isClosing flag, whether sendChan.close() and recvChan.close() have run,
whether socket.close() was called, and the factory promise. -/
structure WsState where
  isClosing : Bool
  sendChanClosed : Bool
  recvChanClosed : Bool
  socketCloseCalled : Bool
  promise : WsPromise
  deriving DecidableEq

def initWs : WsState :=
  { isClosing := false
    sendChanClosed := false
    recvChanClosed := false
    socketCloseCalled := false
    promise := .pending }

/-- Socket events handled by makeWebSocket. -/
inductive WsEv where
  | onopen
  | onclose
  | onerror
  deriving DecidableEq

/-- Handlers of makeWebSocket (src/channel.ts, lines 139-171): onopen
resolves the factory promise (a no-op once settled); onclose closes both
channels unless isClosing is already set; onerror, unless isClosing is
already set, sets it, calls socket.close() and rejects the factory promise
(a no-op once settled) - it closes neither channel. -/
def applyWs (s : WsState) : WsEv → WsState
  | .onopen =>
    { s with promise := if s.promise = .pending then .resolvedCh else s.promise }
  | .onclose =>
    if s.isClosing then s
    else { s with
      isClosing := true
      sendChanClosed := true
      recvChanClosed := true }
  | .onerror =>
    if s.isClosing then s
    else { s with
      isClosing := true
      socketCloseCalled := true
      promise := if s.promise = .pending then .rejectedErr else s.promise }

def runWs (evs : List WsEv) : WsState := evs.foldl applyWs initWs

/-- C2 (the code at the failing input): when the socket errors after open,
the error handler sets isClosing without closing either channel, and the
following close event is therefore a no-op for the channels: neither the
inbound nor the outbound channel is ever closed. The second half of the
claim does hold: an error arriving before open rejects the factory promise. -/
theorem c2_error_leaves_channels_open :
    (runWs [WsEv.onopen, WsEv.onerror, WsEv.onclose]).sendChanClosed = false ∧
    (runWs [WsEv.onopen, WsEv.onerror, WsEv.onclose]).recvChanClosed = false ∧
    (runWs [WsEv.onopen, WsEv.onerror, WsEv.onclose]).isClosing = true ∧
    (runWs [WsEv.onerror, WsEv.onclose]).promise = WsPromise.rejectedErr ∧
    (runWs [WsEv.onerror, WsEv.onclose]).sendChanClosed = false ∧
    (runWs [WsEv.onerror, WsEv.onclose]).recvChanClosed = false := by
  decide

end Warp
